import Mathlib

/-
  Verification development for the wedding-site HTTP server (src/server.js).

  The server is embedded shallowly:
  * JSON values (as produced by the JSON.parse builtin) are the inductive
    type Json below; the builtin JSON.parse / JSON.stringify themselves are
    not repository code, so handlers are embedded as functions of the parse
    OUTCOME of their inputs, and the persisted store file is classified by
    how reading and parsing it would go (type StoreState).
  * The POST /rsvp handler body (the function run on the end event of the
    request stream, src/server.js lines 92-131) is submitOnEnd.
  * The body-accumulation loop with its 1e6 size guard (lines 83-91) is
    readBody.
  * The GET /rsvps handler (lines 140-166) is listOnRead at the level of the
    raw readFile outcome, and listOnStore at the level of the store
    classification (the handler returns the raw file text verbatim; when the
    file holds the JSON text of v that response is recorded as Body.json v).
  * The static handler (lines 187-209) is staticServe, with the Node
    path.join / path.resolve builtins modelled by resolvePath (POSIX
    normalization of an absolute path) and path.extname by extname.
  * The top-level method and pathname dispatch (lines 79-213) is route.

  Machine integers do not occur; all sizes are Nat.
-/

/-- Splitting a character list at a separator, keeping empty groups, as
the split builtins do.  Structural recursion so that concrete instances
reduce in the kernel. -/
def splitChar : List Char → Char → List (List Char)
  | [], _ => [[]]
  | c :: rest, sep =>
    match splitChar rest sep with
    | [] => [[c]]
    | g :: gs => if c = sep then [] :: g :: gs else (c :: g) :: gs

/-- String splitting at a separator character. -/
def strSplit (s : String) (sep : Char) : List String :=
  (splitChar s.data sep).map String.mk

/-- Joining strings with a separator, as the join builtins do. -/
def strJoin (sep : String) : List String → String
  | [] => ""
  | [g] => g
  | g :: gs => g ++ sep ++ strJoin sep gs

/-- The JavaScript startsWith builtin. -/
def strStartsWith (s pre : String) : Bool :=
  pre.data.isPrefixOf s.data

/-- The whitespace class the JavaScript trim builtin strips: the
ECMAScript WhiteSpace production (tab, vertical tab, form feed, space,
no-break space, zero width no-break space, and every Unicode
Space_Separator code point: U+1680, U+2000 through U+200A, U+202F,
U+205F, U+3000) together with the LineTerminator production (line feed,
carriage return, line separator U+2028, paragraph separator U+2029). -/
def jsWhitespace (c : Char) : Bool :=
  c = ' ' ∨ c = '\t' ∨ c = '\n' ∨ c = '\r' ∨
    c = '\x0b' ∨ c = '\x0c' ∨ c = '\u00A0' ∨ c = '\uFEFF' ∨
    c = '\u1680' ∨ (0x2000 ≤ c.toNat ∧ c.toNat ≤ 0x200A) ∨
    c = '\u2028' ∨ c = '\u2029' ∨ c = '\u202F' ∨ c = '\u205F' ∨ c = '\u3000'

/-- The JavaScript trim builtin: strip whitespace from both ends. -/
def jsTrim (s : String) : String :=
  String.mk (((s.data.dropWhile jsWhitespace).reverse.dropWhile jsWhitespace).reverse)

/-- Lower-casing of a string, for the toLowerCase call on extensions. -/
def strToLower (s : String) : String :=
  String.mk (s.data.map Char.toLower)

/-- The number of UTF-16 code units a character occupies: 2 for code
points beyond the basic multilingual plane, 1 otherwise.  The JavaScript
string length property counts code units. -/
def utf16Size (c : Char) : Nat :=
  if 0x10000 ≤ c.toNat then 2 else 1

/-- The JavaScript length of a string: its UTF-16 code unit count. -/
def utf16Len (s : String) : Nat :=
  (s.data.map utf16Size).sum

/-- A JSON value as produced by the JSON.parse builtin.  Objects are key
value lists in source order; JSON.parse never yields duplicate keys (a
later duplicate overwrites), and property lookup jsGet takes the last
occurrence so that it is faithful even on lists with duplicates. -/
inductive Json where
  | null : Json
  | bool (b : Bool) : Json
  | num (n : Int) : Json
  | str (s : String) : Json
  | arr (xs : List Json) : Json
  | obj (kvs : List (String × Json)) : Json

/-- JavaScript falsiness of a JSON value: null, false, 0 and the empty
string are falsy; every array and object is truthy. -/
def jsFalsy : Json → Bool
  | Json.null => true
  | Json.bool b => !b
  | Json.num n => n == 0
  | Json.str s => s == ""
  | Json.arr _ => false
  | Json.obj _ => false

/-- Property lookup in an object key list, last occurrence wins (matching
the object JSON.parse builds). -/
def jsGet : List (String × Json) → String → Option Json
  | [], _ => none
  | (k1, v1) :: rest, k =>
    match jsGet rest k with
    | some r => some r
    | none => if k1 = k then some v1 else none

/-- JavaScript property access data.k on a parsed JSON value: only objects
have (relevant) properties; on every other value the name property is
undefined (none). -/
def jsProp : Json → String → Option Json
  | Json.obj kvs, k => jsGet kvs k
  | _, _ => none

/-- The validation test of src/server.js line 96, literally
not data, or typeof data.name is not string, or data.name.trim() is empty.
For falsy data the JS disjunction short-circuits before the property
access; for truthy non-objects data.name is undefined, hence not a
string. -/
def rsvpInvalid (data : Json) : Bool :=
  jsFalsy data ||
    (match jsProp data "name" with
     | some (Json.str s) => jsTrim s = ""
     | _ => true)

/-- Classification of the store file data/rsvps.json as the handlers see
it.  missing: the file does not exist.  emptyFile: it exists with empty
contents (JSON.parse of the empty string throws; the empty string is
falsy).  garbage s: it exists with nonempty contents s that do not parse
as JSON.  parsed v: it exists and its contents are a JSON text denoting
v. -/
inductive StoreState where
  | missing : StoreState
  | emptyFile : StoreState
  | garbage (s : String) : StoreState
  | parsed (v : Json) : StoreState

/-- Store loading in the submit handler (src/server.js lines 101-111):
start from the empty array; if the file exists and parses, take the parsed
value unless falsy (the "|| []" default); a read or parse exception leaves
the empty array. -/
def loadRsvps : StoreState → Json
  | StoreState.missing => Json.arr []
  | StoreState.emptyFile => Json.arr []
  | StoreState.garbage _ => Json.arr []
  | StoreState.parsed v => if jsFalsy v then Json.arr [] else v

/-- Object update with JavaScript spread semantics, as in the record
construction on line 116: the keys of kvs in order, the value at key k
replaced by v if k is present, else (k, v) appended at the end. -/
def jsSpreadSet (kvs : List (String × Json)) (k : String) (v : Json) :
    List (String × Json) :=
  if kvs.any (fun p => p.1 = k) then
    kvs.map (fun p => (p.1, if p.1 = k then v else p.2))
  else
    kvs ++ [(k, v)]

/-- The appended record of line 116: all submitted fields spread first,
then createdAt set to the server timestamp (overwriting a submitted
createdAt).  Validation guarantees the data reaching this point is an
object; the catch-all branch is never hit on the success path. -/
def mkRecord (data : Json) (now : String) : Json :=
  match data with
  | Json.obj kvs => Json.obj (jsSpreadSet kvs "createdAt" (Json.str now))
  | v => v

/-- Response bodies: a JSON value the code serializes (Body.json), plain
text, a raw string passed through verbatim from the store file, static
file bytes, or no body at all. -/
inductive Body where
  | json (v : Json) : Body
  | text (s : String) : Body
  | raw (s : String) : Body
  | file (data : String) : Body
  | empty : Body

/-- An HTTP response: status code, headers in write order, body. -/
structure HResp where
  status : Nat
  headers : List (String × String)
  body : Body

/-- The header set of every /rsvp JSON response. -/
def corsJsonHeaders : List (String × String) :=
  [("Content-Type", "application/json"), ("Access-Control-Allow-Origin", "*")]

/-- The 400 response of lines 97-98. -/
def invalidResp : HResp :=
  ⟨400, corsJsonHeaders,
    Body.json (Json.obj [("error", Json.str "Invalid submission: name is required")])⟩

/-- The 500 response of lines 128-129 (the catch block). -/
def internalErrorResp : HResp :=
  ⟨500, corsJsonHeaders,
    Body.json (Json.obj [("error", Json.str "Internal server error")])⟩

/-- The 200 response of lines 124-125. -/
def successResp : HResp :=
  ⟨200, corsJsonHeaders,
    Body.json (Json.obj [("message", Json.str "Thank you for your RSVP!")])⟩

/-- The end-of-body part of the POST /rsvp handler (lines 92-131), as a
function of the JSON.parse outcome of the accumulated body (none when
parsing throws), the store state, and the serialized current time.
Returns the response together with the store state afterwards.  When
loadRsvps yields a truthy non-array value, rsvps.push is not a function
and the thrown TypeError lands in the catch block: 500, nothing written.
A parse failure lands in the same catch block.  mkdirSync and
writeFileSync are assumed not to fail (filesystem faults are outside the
model). -/
def submitOnEnd (parsedBody : Option Json) (store : StoreState) (now : String) :
    HResp × StoreState :=
  match parsedBody with
  | none => (internalErrorResp, store)
  | some data =>
    if rsvpInvalid data then
      (invalidResp, store)
    else
      match loadRsvps store with
      | Json.arr xs =>
        (successResp, StoreState.parsed (Json.arr (xs ++ [mkRecord data now])))
      | _ => (internalErrorResp, store)

/-- The data-event accumulation loop of lines 83-91: append each chunk
(decoded to a string) to the body, and destroy the socket as soon as the
accumulated body length exceeds 1e6.  Returns none when the socket was
destroyed (no end event, no response).  The guard is on the JavaScript
length of the accumulated string, that is its UTF-16 code unit count. -/
def readBody : List String → String → Option String
  | [], body => some body
  | c :: rest, body =>
    let body1 := body ++ c
    if utf16Len body1 > 1000000 then none else readBody rest body1

/-- A whole POST /rsvp request: accumulate the chunks; if the socket
survives, run the end handler on the JSON.parse outcome of the body
(parseOf stands for the JSON.parse builtin).  none means the connection
was destroyed and no response of any kind was sent. -/
def submitRequest (chunks : List String) (parseOf : String → Option Json)
    (store : StoreState) (now : String) : Option (HResp × StoreState) :=
  match readBody chunks "" with
  | none => none
  | some body => some (submitOnEnd (parseOf body) store now)

/-- The UTF-8 byte size of a string, used to state claims about body size
in bytes (a network chunk of n bytes decodes to a string of utf8Size
sum n). -/
def byteSize (s : String) : Nat :=
  (s.data.map Char.utf8Size).sum

/-- The outcome of an fs.readFile call: the file contents, or an error
with its code (ENOENT for a missing file, EACCES, EISDIR, ...). -/
inductive ReadOutcome where
  | ok (contents : String) : ReadOutcome
  | err (code : String) : ReadOutcome

/-- The GET /rsvps handler (lines 140-166) as a function of the raw
readFile outcome.  ENOENT becomes the literal text of the two characters
open bracket close bracket with status 200; any other read error becomes
500; otherwise the file contents are passed through verbatim, with the
same literal default when the contents are the (falsy) empty string. -/
def listOnRead : ReadOutcome → HResp
  | ReadOutcome.err code =>
    if code = "ENOENT" then
      ⟨200, corsJsonHeaders, Body.raw "[]"⟩
    else
      ⟨500, corsJsonHeaders,
        Body.json (Json.obj [("error", Json.str "Unable to read RSVPs")])⟩
  | ReadOutcome.ok d =>
    ⟨200, corsJsonHeaders, Body.raw (if d = "" then "[]" else d)⟩

/-- The same GET /rsvps handler viewed at the level of the store
classification: a missing file reads as an ENOENT error, an empty file as
empty contents (both give the literal empty-array text), garbage is passed
through verbatim, and a file holding the JSON text of v answers with that
JSON text, recorded as Body.json v. -/
def listOnStore : StoreState → HResp
  | StoreState.missing => ⟨200, corsJsonHeaders, Body.raw "[]"⟩
  | StoreState.emptyFile => ⟨200, corsJsonHeaders, Body.raw "[]"⟩
  | StoreState.garbage s => ⟨200, corsJsonHeaders, Body.raw s⟩
  | StoreState.parsed v => ⟨200, corsJsonHeaders, Body.json v⟩

/-- A response body denotes a list of records when it is either the
literal empty-array text or the JSON text of exactly that array. -/
def bodyDenotes : Body → List Json → Prop
  | Body.raw s, xs => s = "[]" ∧ xs = []
  | Body.json (Json.arr ys), xs => ys = xs
  | _, _ => False

/-- Sequential valid submissions: fold the submit handler over a list of
(parsed body, timestamp) pairs, keeping the store state. -/
def submitSeq (subs : List (Json × String)) (store : StoreState) : StoreState :=
  subs.foldl (fun st p => (submitOnEnd (some p.1) st p.2).2) store

/-- Normalize the segments of an absolute POSIX path, as the Node
path.resolve builtin does: drop empty and single-dot segments, let a
double-dot segment pop the previous one (and vanish at the root).  The
accumulator holds the kept segments in reverse. -/
def normSegs : List String → List String → List String
  | [], acc => acc.reverse
  | s :: rest, acc =>
    if s = "" ∨ s = "." then normSegs rest acc
    else if s = ".." then normSegs rest acc.tail
    else normSegs rest (s :: acc)

/-- Node path.resolve on an already absolute path: pure segment
normalization. -/
def resolvePath (p : String) : String :=
  "/" ++ strJoin "/" (normSegs (strSplit p '/') [])

/-- The asset root PUBLIC_DIR = path.join(__dirname, asset directory
name).  The deployment directory __dirname is environment dependent; a
representative absolute value is fixed here (no claim depends on its
value). -/
def PUBLIC_DIR : String := "/srv/wedding-site/public"

/-- The resolved filesystem path the static handler computes for a decoded
request pathname (lines 189-191): the root path aliases to the index
document, then path.join(PUBLIC_DIR, requestedPath) followed by
path.resolve, which for an absolute first argument amounts to one
normalization of the concatenation. -/
def resolvedFor (pathname : String) : String :=
  resolvePath (PUBLIC_DIR ++ "/" ++ (if pathname = "/" then "/index.html" else pathname))

/-- Whether an absolute path lies within the root directory: it is the
root itself or has the root followed by a separator as a prefix.  This is
the spec notion of being inside the asset root, stated independently of
the guard the code runs. -/
def withinRoot (root p : String) : Bool :=
  p = root || strStartsWith p (root ++ "/")

/-- Node path.extname: the part of the last path segment from its last
dot on, empty for a dotless or dot-initial (hidden) file name. -/
def extname (p : String) : String :=
  let base := ((strSplit p '/').getLast?).getD ""
  match strSplit base '.' with
  | [] => ""
  | [_] => ""
  | first :: rest =>
    if first = "" ∧ rest.length = 1 then ""
    else "." ++ (rest.getLast?.getD "")

/-- The content-type table of src/server.js lines 37-60. -/
def getContentType (filePath : String) : String :=
  let ext := strToLower (extname filePath)
  if ext = ".html" then "text/html; charset=utf-8"
  else if ext = ".css" then "text/css; charset=utf-8"
  else if ext = ".js" then "application/javascript; charset=utf-8"
  else if ext = ".json" then "application/json; charset=utf-8"
  else if ext = ".png" then "image/png"
  else if ext = ".jpg" ∨ ext = ".jpeg" then "image/jpeg"
  else if ext = ".svg" then "image/svg+xml"
  else if ext = ".ico" then "image/x-icon"
  else "application/octet-stream"

/-- The 403 response of lines 193-194. -/
def forbiddenResp : HResp :=
  ⟨403, [("Content-Type", "text/plain")], Body.text "Forbidden"⟩

/-- The 404 response of lines 200-201. -/
def notFoundResp : HResp :=
  ⟨404, [("Content-Type", "text/plain")], Body.text "Not Found"⟩

/-- The static handler (lines 187-209) on a decoded request pathname,
with the filesystem supplied as a map from absolute path to readFile
outcome.  The guard is the literal startsWith check of line 192; any
readFile error at all yields the 404 response. -/
def staticServe (fsys : String → ReadOutcome) (pathname : String) : HResp :=
  let resolvedPath := resolvedFor pathname
  if strStartsWith resolvedPath PUBLIC_DIR then
    match fsys resolvedPath with
    | ReadOutcome.err _ => notFoundResp
    | ReadOutcome.ok d =>
      ⟨200, [("Content-Type", getContentType resolvedPath)], Body.file d⟩
  else
    forbiddenResp

/-- The routing outcome of the top-level request handler. -/
inductive Route where
  | submit : Route
  | list : Route
  | preflight : Route
  | staticFile : Route
  | methodNotAllowed : Route
deriving DecidableEq

/-- The dispatch of the top-level request handler (lines 79-213), in the
order the source tests: POST /rsvp, then GET /rsvps, then OPTIONS /rsvp,
then any other GET to the static handler, else the 405 fallback. -/
def route (method pathname : String) : Route :=
  if method = "POST" ∧ pathname = "/rsvp" then Route.submit
  else if method = "GET" ∧ pathname = "/rsvps" then Route.list
  else if method = "OPTIONS" ∧ pathname = "/rsvp" then Route.preflight
  else if method = "GET" then Route.staticFile
  else Route.methodNotAllowed

/-- The 204 preflight response of lines 172-179. -/
def preflightResp : HResp :=
  ⟨204,
    [("Access-Control-Allow-Origin", "*"),
     ("Access-Control-Allow-Methods", "POST, OPTIONS"),
     ("Access-Control-Allow-Headers", "Content-Type")],
    Body.empty⟩

/-- The 405 fallback response of lines 212-213. -/
def methodNotAllowedResp : HResp :=
  ⟨405, [("Content-Type", "text/plain")], Body.text "Method Not Allowed"⟩

/-- Lookup misses a freshly appended pair with a different key. -/
theorem jsGet_append_ne (kvs : List (String × Json)) (k : String) (v : Json)
    (k0 : String) (h : k0 ≠ k) :
    jsGet (kvs ++ [(k, v)]) k0 = jsGet kvs k0 := by
  have h2 : ¬(k = k0) := fun e => h e.symm
  induction kvs with
  | nil => simp [jsGet, h2]
  | cons p rest ih =>
    obtain ⟨k1, v1⟩ := p
    simp [jsGet, ih]

/-- Lookup finds a freshly appended pair at its key. -/
theorem jsGet_append_self (kvs : List (String × Json)) (k : String) (v : Json) :
    jsGet (kvs ++ [(k, v)]) k = some v := by
  induction kvs with
  | nil => simp [jsGet]
  | cons p rest ih =>
    obtain ⟨k1, v1⟩ := p
    simp [jsGet, ih]

/-- Replacing the value at one key leaves lookups at other keys alone. -/
theorem jsGet_mapset_ne (kvs : List (String × Json)) (k : String) (v : Json)
    (k0 : String) (h : k0 ≠ k) :
    jsGet (kvs.map (fun p => (p.1, if p.1 = k then v else p.2))) k0 = jsGet kvs k0 := by
  induction kvs with
  | nil => rfl
  | cons p rest ih =>
    obtain ⟨k1, v1⟩ := p
    by_cases hk : k1 = k
    · subst hk
      have h2 : ¬(k1 = k0) := fun e => h e.symm
      simp [jsGet, ih, h2]
    · simp [jsGet, ih, hk]

/-- If no pair carries the key, lookup returns none. -/
theorem jsGet_eq_none_of_not_any (kvs : List (String × Json)) (k : String)
    (h : kvs.any (fun p => p.1 = k) = false) :
    jsGet kvs k = none := by
  induction kvs with
  | nil => rfl
  | cons p rest ih =>
    obtain ⟨k1, v1⟩ := p
    simp only [List.any_cons, Bool.or_eq_false_iff, decide_eq_false_iff_not] at h
    simp [jsGet, ih h.2, h.1]

/-- Updating the values at a key does not change which keys occur. -/
theorem any_key_map (rest : List (String × Json)) (k : String) (v : Json) :
    ((rest.map (fun p => (p.1, if p.1 = k then v else p.2))).any (fun p => p.1 = k)) =
      (rest.any (fun p => p.1 = k)) := by
  induction rest with
  | nil => rfl
  | cons p tail ih =>
    obtain ⟨k1, v1⟩ := p
    by_cases hk : k1 = k <;> simp [hk, ih]

/-- Replacing the value at a present key makes lookup at it return the new
value. -/
theorem jsGet_mapset_self (kvs : List (String × Json)) (k : String) (v : Json)
    (h : kvs.any (fun p => p.1 = k) = true) :
    jsGet (kvs.map (fun p => (p.1, if p.1 = k then v else p.2))) k = some v := by
  induction kvs with
  | nil => simp at h
  | cons p rest ih =>
    obtain ⟨k1, v1⟩ := p
    by_cases hrest : rest.any (fun p => p.1 = k) = true
    · by_cases hk : k1 = k <;> simp [jsGet, ih hrest, hk]
    · have hk : k1 = k := by
        simp only [List.any_cons, Bool.or_eq_true_iff, decide_eq_true_eq] at h
        rcases h with h | h
        · exact h
        · exact absurd h hrest
      subst hk
      have hnone :
          jsGet (rest.map (fun p => (p.1, if p.1 = k1 then v else p.2))) k1 = none := by
        apply jsGet_eq_none_of_not_any
        rw [any_key_map]
        exact eq_false_of_ne_true hrest
      simp [jsGet, hnone]

/-- Spread-update preserves every other key. -/
theorem jsSpreadSet_get_ne (kvs : List (String × Json)) (k : String) (v : Json)
    (k0 : String) (h : k0 ≠ k) :
    jsGet (jsSpreadSet kvs k v) k0 = jsGet kvs k0 := by
  unfold jsSpreadSet
  split
  · exact jsGet_mapset_ne kvs k v k0 h
  · exact jsGet_append_ne kvs k v k0 h

/-- Spread-update sets its key. -/
theorem jsSpreadSet_get_self (kvs : List (String × Json)) (k : String) (v : Json) :
    jsGet (jsSpreadSet kvs k v) k = some v := by
  unfold jsSpreadSet
  split
  · exact jsGet_mapset_self kvs k v (by assumption)
  · exact jsGet_append_self kvs k v

/-- A submission that passes validation is an object. -/
theorem valid_is_obj (data : Json) (h : rsvpInvalid data = false) :
    ∃ kvs, data = Json.obj kvs := by
  cases data with
  | obj kvs => exact ⟨kvs, rfl⟩
  | null => simp [rsvpInvalid, jsFalsy] at h
  | bool b => cases b <;> simp [rsvpInvalid, jsFalsy, jsProp] at h
  | num n => simp [rsvpInvalid, jsFalsy, jsProp] at h
  | str s => simp [rsvpInvalid, jsFalsy, jsProp] at h
  | arr xs => simp [rsvpInvalid, jsFalsy, jsProp] at h

/-- The record construction keeps every submitted field other than
createdAt verbatim. -/
theorem mkRecord_preserves (data : Json) (now k : String)
    (hobj : ∃ kvs, data = Json.obj kvs) (hk : k ≠ "createdAt") :
    jsProp (mkRecord data now) k = jsProp data k := by
  obtain ⟨kvs, rfl⟩ := hobj
  simpa [mkRecord, jsProp] using jsSpreadSet_get_ne kvs "createdAt" (Json.str now) k hk

/-- The record construction stamps createdAt with the server time. -/
theorem mkRecord_createdAt (data : Json) (now : String)
    (hobj : ∃ kvs, data = Json.obj kvs) :
    jsProp (mkRecord data now) "createdAt" = some (Json.str now) := by
  obtain ⟨kvs, rfl⟩ := hobj
  simpa [mkRecord, jsProp] using jsSpreadSet_get_self kvs "createdAt" (Json.str now)

/-- The success path of the submit handler: valid data and a store whose
load yields an array give the 200 response and append exactly one
record. -/
theorem submit_valid_eq (data : Json) (store : StoreState) (now : String)
    (xs : List Json) (hval : rsvpInvalid data = false)
    (hload : loadRsvps store = Json.arr xs) :
    submitOnEnd (some data) store now =
      (successResp, StoreState.parsed (Json.arr (xs ++ [mkRecord data now]))) := by
  simp [submitOnEnd, hval, hload]

/-- Sequential valid submissions starting from an array store append their
records in order. -/
theorem submitSeq_arr (subs : List (Json × String)) (xs : List Json)
    (hval : ∀ p ∈ subs, rsvpInvalid p.1 = false) :
    submitSeq subs (StoreState.parsed (Json.arr xs)) =
      StoreState.parsed (Json.arr (xs ++ subs.map (fun p => mkRecord p.1 p.2))) := by
  induction subs generalizing xs with
  | nil => simp [submitSeq]
  | cons p rest ih =>
    have hp : rsvpInvalid p.1 = false := hval p (List.mem_cons_self p rest)
    have hrest : ∀ q ∈ rest, rsvpInvalid q.1 = false :=
      fun q hq => hval q (List.mem_cons_of_mem p hq)
    have hstep :
        (submitOnEnd (some p.1) (StoreState.parsed (Json.arr xs)) p.2).2 =
          StoreState.parsed (Json.arr (xs ++ [mkRecord p.1 p.2])) := by
      rw [submit_valid_eq p.1 _ p.2 xs hp (by simp [loadRsvps, jsFalsy])]
    show submitSeq rest ((submitOnEnd (some p.1) (StoreState.parsed (Json.arr xs)) p.2).2) =
      StoreState.parsed (Json.arr (xs ++ (p :: rest).map (fun p => mkRecord p.1 p.2)))
    rw [hstep, ih (xs ++ [mkRecord p.1 p.2]) hrest]
    simp

/-- A submission that passes validation has a name field that is a string
with nonempty trim. -/
theorem valid_has_name (data : Json) (h : rsvpInvalid data = false) :
    ∃ s, jsProp data "name" = some (Json.str s) ∧ jsTrim s ≠ "" := by
  unfold rsvpInvalid at h
  rw [Bool.or_eq_false_iff] at h
  obtain ⟨h1, h2⟩ := h
  cases hm : jsProp data "name" with
  | none => rw [hm] at h2; simp at h2
  | some v =>
    cases v with
    | str s =>
      refine ⟨s, rfl, ?_⟩
      rw [hm] at h2
      simpa using h2
    | null => rw [hm] at h2; simp at h2
    | bool b => rw [hm] at h2; simp at h2
    | num n => rw [hm] at h2; simp at h2
    | arr xs => rw [hm] at h2; simp at h2
    | obj kvs => rw [hm] at h2; simp at h2

/-- A submission without such a name field fails validation. -/
theorem rsvpInvalid_of_no_name (data : Json)
    (h : ¬∃ s, jsProp data "name" = some (Json.str s) ∧ jsTrim s ≠ "") :
    rsvpInvalid data = true := by
  cases hv : rsvpInvalid data with
  | false => exact absurd (valid_has_name data hv) h
  | true => rfl

/-- C1 (corrected), counterexample: the claim promises 200 for every
request whose body parses to an object with a nonempty trimmed name, but
when the store file holds the JSON text of a truthy non-array value (here
the empty object), rsvps.push throws and the handler answers 500, storing
nothing. -/
theorem c1_counterexample :
    rsvpInvalid (Json.obj [("name", Json.str "Ada")]) = false ∧
    submitOnEnd (some (Json.obj [("name", Json.str "Ada")]))
        (StoreState.parsed (Json.obj [])) "2026-01-01T00:00:00.000Z" =
      (internalErrorResp, StoreState.parsed (Json.obj [])) ∧
    internalErrorResp.status = 500 :=
  ⟨by decide, rfl, rfl⟩

/-- C1 (amended): for every valid POST /rsvp body, provided the prior
store contents load to a list (missing, empty, unparseable, falsy or an
array), the handler answers 200 with the thank-you message and appends
exactly one record that preserves every submitted field other than
createdAt verbatim and carries the server-assigned createdAt timestamp. -/
theorem c1_rsvp_success (data : Json) (store : StoreState) (now k : String)
    (xs : List Json) (hval : rsvpInvalid data = false)
    (hload : loadRsvps store = Json.arr xs) (hk : k ≠ "createdAt") :
    submitOnEnd (some data) store now =
      (successResp, StoreState.parsed (Json.arr (xs ++ [mkRecord data now]))) ∧
    jsProp (mkRecord data now) k = jsProp data k ∧
    jsProp (mkRecord data now) "createdAt" = some (Json.str now) :=
  ⟨submit_valid_eq data store now xs hval hload,
   mkRecord_preserves data now k (valid_is_obj data hval) hk,
   mkRecord_createdAt data now (valid_is_obj data hval)⟩

/-- C1 witness: a concrete valid submission against a fresh store. -/
theorem c1_rsvp_success_witness :
    rsvpInvalid (Json.obj [("name", Json.str "Ada")]) = false ∧
    loadRsvps StoreState.missing = Json.arr [] ∧
    ("name" : String) ≠ "createdAt" ∧
    (submitOnEnd (some (Json.obj [("name", Json.str "Ada")])) StoreState.missing
        "2026-02-03T04:05:06.000Z" =
      (successResp, StoreState.parsed (Json.arr
        ([] ++ [mkRecord (Json.obj [("name", Json.str "Ada")]) "2026-02-03T04:05:06.000Z"]))) ∧
     jsProp (mkRecord (Json.obj [("name", Json.str "Ada")]) "2026-02-03T04:05:06.000Z") "name" =
       jsProp (Json.obj [("name", Json.str "Ada")]) "name" ∧
     jsProp (mkRecord (Json.obj [("name", Json.str "Ada")]) "2026-02-03T04:05:06.000Z") "createdAt" =
       some (Json.str "2026-02-03T04:05:06.000Z")) := by
  have h1 : rsvpInvalid (Json.obj [("name", Json.str "Ada")]) = false := by decide
  have h3 : ("name" : String) ≠ "createdAt" := by decide
  exact ⟨h1, rfl, h3, c1_rsvp_success _ _ _ _ _ h1 rfl h3⟩

/-- C2 (confirmed): a body that parses as JSON but is not an object with
a name field of nonempty trimmed value gets the 400 invalid-submission
response and the store is left untouched. -/
theorem c2_invalid_submission_400 (data : Json) (store : StoreState) (now : String)
    (h : ¬∃ s, jsProp data "name" = some (Json.str s) ∧ jsTrim s ≠ "") :
    submitOnEnd (some data) store now = (invalidResp, store) := by
  have hv : rsvpInvalid data = true := rsvpInvalid_of_no_name data h
  simp [submitOnEnd, hv]

/-- C2 witness: the empty object is rejected with 400 and no store
change; the whitespace-name object likewise. -/
theorem c2_invalid_submission_400_witness :
    (¬∃ s, jsProp (Json.obj []) "name" = some (Json.str s) ∧ jsTrim s ≠ "") ∧
    submitOnEnd (some (Json.obj [])) StoreState.missing "2026-01-01T00:00:00.000Z" =
      (invalidResp, StoreState.missing) ∧
    (¬∃ s, jsProp (Json.obj [("name", Json.str "  ")]) "name" = some (Json.str s) ∧
      jsTrim s ≠ "") ∧
    submitOnEnd (some (Json.obj [("name", Json.str "  ")])) StoreState.missing
        "2026-01-01T00:00:00.000Z" =
      (invalidResp, StoreState.missing) := by
  have h1 : ¬∃ s, jsProp (Json.obj []) "name" = some (Json.str s) ∧ jsTrim s ≠ "" := by
    rintro ⟨s, hs, _⟩
    simp [jsProp, jsGet] at hs
  have h2 : ¬∃ s, jsProp (Json.obj [("name", Json.str "  ")]) "name" =
      some (Json.str s) ∧ jsTrim s ≠ "" := by
    rintro ⟨s, hs, hne⟩
    simp [jsProp, jsGet] at hs
    subst hs
    exact hne (by decide)
  exact ⟨h1, c2_invalid_submission_400 _ _ _ h1, h2, c2_invalid_submission_400 _ _ _ h2⟩

/-- C3 (corrected), counterexample: a body that does not parse as JSON
throws inside the try block and is answered by the catch-all with 500 and
the generic internal-error message, not with a 400 client-error. -/
theorem c3_counterexample :
    submitOnEnd none StoreState.missing "2026-01-01T00:00:00.000Z" =
      (internalErrorResp, StoreState.missing) ∧
    internalErrorResp.status = 500 ∧ ¬internalErrorResp.status = 400 :=
  ⟨rfl, rfl, by decide⟩

/-- C3 (amended): for every request whose body fails to parse as JSON,
whatever the store state and clock, the handler answers with the generic
500 internal-error response and leaves the store unchanged. -/
theorem c3_malformed_json_500 (store : StoreState) (now : String) :
    submitOnEnd none store now = (internalErrorResp, store) := rfl

/-- C5 (confirmed): when the prior store file is missing, empty or
unparseable, a valid submission never fails because of it: the prior
contents are treated as the empty sequence and the handler answers 200,
persisting exactly the one new record. -/
theorem c5_prior_corruption_ignored (data : Json) (store : StoreState) (now : String)
    (hval : rsvpInvalid data = false)
    (hstore : store = StoreState.missing ∨ store = StoreState.emptyFile ∨
      ∃ s, store = StoreState.garbage s) :
    submitOnEnd (some data) store now =
      (successResp, StoreState.parsed (Json.arr [mkRecord data now])) := by
  have hload : loadRsvps store = Json.arr [] := by
    rcases hstore with h | h | ⟨s, h⟩ <;> subst h <;> rfl
  simpa using submit_valid_eq data store now [] hval hload

/-- C5 witness: a valid submission against a garbage store file. -/
theorem c5_prior_corruption_ignored_witness :
    rsvpInvalid (Json.obj [("name", Json.str "Ada")]) = false ∧
    (StoreState.garbage "not json" = StoreState.missing ∨
     StoreState.garbage "not json" = StoreState.emptyFile ∨
     ∃ s, StoreState.garbage "not json" = StoreState.garbage s) ∧
    submitOnEnd (some (Json.obj [("name", Json.str "Ada")]))
        (StoreState.garbage "not json") "2026-01-01T00:00:00.000Z" =
      (successResp, StoreState.parsed (Json.arr
        [mkRecord (Json.obj [("name", Json.str "Ada")]) "2026-01-01T00:00:00.000Z"])) := by
  have h1 : rsvpInvalid (Json.obj [("name", Json.str "Ada")]) = false := by decide
  have h2 : StoreState.garbage "not json" = StoreState.missing ∨
      StoreState.garbage "not json" = StoreState.emptyFile ∨
      ∃ s, StoreState.garbage "not json" = StoreState.garbage s :=
    Or.inr (Or.inr ⟨"not json", rfl⟩)
  exact ⟨h1, h2, c5_prior_corruption_ignored _ _ _ h1 h2⟩

/-- C6 (confirmed): the submit handler either leaves the store file as it
was or writes the serialization of a JSON array; no operation of the
system writes anything else (the list and static handlers, listOnRead,
listOnStore and staticServe, perform no writes at all, as their types
show). -/
theorem c6_writes_only_arrays (parsedBody : Option Json) (store : StoreState)
    (now : String) :
    (submitOnEnd parsedBody store now).2 = store ∨
      ∃ xs, (submitOnEnd parsedBody store now).2 = StoreState.parsed (Json.arr xs) := by
  cases parsedBody with
  | none => exact Or.inl rfl
  | some data =>
    by_cases hval : rsvpInvalid data = true
    · exact Or.inl (by simp [submitOnEnd, hval])
    · have hv : rsvpInvalid data = false := eq_false_of_ne_true hval
      cases hl : loadRsvps store with
      | arr xs =>
        exact Or.inr ⟨xs ++ [mkRecord data now], by simp [submitOnEnd, hv, hl]⟩
      | null => exact Or.inl (by simp [submitOnEnd, hv, hl])
      | bool b => exact Or.inl (by simp [submitOnEnd, hv, hl])
      | num n => exact Or.inl (by simp [submitOnEnd, hv, hl])
      | str s => exact Or.inl (by simp [submitOnEnd, hv, hl])
      | obj kvs => exact Or.inl (by simp [submitOnEnd, hv, hl])


/-- Appending the empty string on the left is the identity. -/
theorem str_empty_append (s : String) : "" ++ s = s := by
  cases s
  rfl

/-- The length of a string built from a character list is the length of
the list. -/
theorem str_length_mk (l : List Char) : (String.mk l).length = l.length := rfl

/-- The sum of a replicated natural number. -/
theorem sum_replicate_nat (n x : Nat) : (List.replicate n x).sum = n * x := by
  induction n with
  | zero => simp
  | succ m ih => rw [List.replicate_succ, List.sum_cons, ih, Nat.succ_mul]; omega

/-- C7 (confirmed): on a fresh deployment the listing answers 200 with
exactly the two-character empty-array text, and after any sequence of
valid submissions performed sequentially the listing answers 200 with a
JSON array holding exactly the submitted records in submission order. -/
theorem c7_fresh_and_sequential (subs : List (Json × String))
    (hval : ∀ p ∈ subs, rsvpInvalid p.1 = false) :
    listOnStore StoreState.missing = ⟨200, corsJsonHeaders, Body.raw "[]"⟩ ∧
    (listOnStore (submitSeq subs StoreState.missing)).status = 200 ∧
    bodyDenotes (listOnStore (submitSeq subs StoreState.missing)).body
      (subs.map (fun p => mkRecord p.1 p.2)) := by
  cases subs with
  | nil => exact ⟨rfl, rfl, rfl, rfl⟩
  | cons p rest =>
    have hp : rsvpInvalid p.1 = false := hval p (List.mem_cons_self p rest)
    have hrest : ∀ q ∈ rest, rsvpInvalid q.1 = false :=
      fun q hq => hval q (List.mem_cons_of_mem p hq)
    have hstep : (submitOnEnd (some p.1) StoreState.missing p.2).2 =
        StoreState.parsed (Json.arr [mkRecord p.1 p.2]) := by
      rw [submit_valid_eq p.1 StoreState.missing p.2 [] hp rfl]
      simp
    have h1 : submitSeq (p :: rest) StoreState.missing =
        StoreState.parsed (Json.arr ((p :: rest).map (fun q => mkRecord q.1 q.2))) := by
      show submitSeq rest ((submitOnEnd (some p.1) StoreState.missing p.2).2) =
        StoreState.parsed (Json.arr ((p :: rest).map (fun q => mkRecord q.1 q.2)))
      rw [hstep, submitSeq_arr rest [mkRecord p.1 p.2] hrest]
      simp
    refine ⟨rfl, ?_, ?_⟩ <;> rw [h1] <;> rfl

/-- C7 witness: two concrete valid submissions against a fresh store. -/
theorem c7_fresh_and_sequential_witness :
    ([(Json.obj [("name", Json.str "Ada")], "t1"),
      (Json.obj [("name", Json.str "Bob")], "t2")].all
        (fun p => rsvpInvalid p.1 = false)) = true ∧
    (listOnStore (submitSeq
        [(Json.obj [("name", Json.str "Ada")], "t1"),
         (Json.obj [("name", Json.str "Bob")], "t2")] StoreState.missing)).status = 200 ∧
    bodyDenotes (listOnStore (submitSeq
        [(Json.obj [("name", Json.str "Ada")], "t1"),
         (Json.obj [("name", Json.str "Bob")], "t2")] StoreState.missing)).body
      ([(Json.obj [("name", Json.str "Ada")], "t1"),
        (Json.obj [("name", Json.str "Bob")], "t2")].map (fun p => mkRecord p.1 p.2)) := by
  have h : ∀ p ∈ ([(Json.obj [("name", Json.str "Ada")], "t1"),
      (Json.obj [("name", Json.str "Bob")], "t2")] : List (Json × String)),
      rsvpInvalid p.1 = false := by decide
  have hthm := c7_fresh_and_sequential _ h
  exact ⟨by decide, hthm.2.1, hthm.2.2⟩

/-- The UTF-16 code unit count of the empty string. -/
theorem utf16Len_empty : utf16Len "" = 0 := rfl

/-- The UTF-16 code unit count of a string built from a character
list. -/
theorem utf16Len_mk (l : List Char) :
    utf16Len (String.mk l) = (l.map utf16Size).sum := rfl

/-- The UTF-16 code unit count is additive over append. -/
theorem utf16Len_append (a b : String) :
    utf16Len (a ++ b) = utf16Len a + utf16Len b := by
  cases a with
  | mk l1 =>
    cases b with
    | mk l2 =>
      show ((l1 ++ l2).map utf16Size).sum =
        (l1.map utf16Size).sum + (l2.map utf16Size).sum
      rw [List.map_append, List.sum_append]

/-- A single chunk within the cap passes the accumulation loop. -/
theorem readBody_single (c : String)
    (h : ¬utf16Len (("" : String) ++ c) > 1000000) :
    readBody [c] "" = some ("" ++ c) := by
  show (if utf16Len (("" : String) ++ c) > 1000000 then none
    else readBody [] (("" : String) ++ c)) = some ("" ++ c)
  rw [if_neg h]
  rfl

/-- A single-chunk request within the cap runs the end handler on the
parse outcome of that chunk. -/
theorem submitRequest_single (c : String) (parseOf : String → Option Json)
    (store : StoreState) (now : String)
    (h : ¬utf16Len (("" : String) ++ c) > 1000000) :
    submitRequest [c] parseOf store now =
      some (submitOnEnd (parseOf ("" ++ c)) store now) := by
  unfold submitRequest
  rw [readBody_single c h]

/-- The summed code unit counts of a one-chunk list. -/
theorem sum_map_single_utf16 (s : String) :
    ([s].map utf16Len).sum = utf16Len s + 0 := rfl

/-- C8 (corrected), counterexample: the size guard compares the length of
the accumulated decoded string, not the byte size; a single chunk of
600001 two-byte characters weighs 1200002 bytes, above the cap, yet the
request completes the end handler and a structured response is sent. -/
theorem c8_counterexample :
    byteSize (String.mk (List.replicate 600001 'é')) > 1000000 ∧
    submitRequest [String.mk (List.replicate 600001 'é')] (fun _ => none)
        StoreState.missing "2026-01-01T00:00:00.000Z" =
      some (internalErrorResp, StoreState.missing) := by
  constructor
  · have h2 : ('é').utf8Size = 2 := by decide
    unfold byteSize
    rw [show (String.mk (List.replicate 600001 'é')).data =
          List.replicate 600001 'é' from rfl,
        List.map_replicate, h2, sum_replicate_nat]
    norm_num
  · have h1 : utf16Size 'é' = 1 := by decide
    have hle : ¬utf16Len (("" : String) ++ String.mk (List.replicate 600001 'é'))
        > 1000000 := by
      rw [str_empty_append, utf16Len_mk, List.map_replicate, h1, sum_replicate_nat]
      norm_num
    rw [submitRequest_single _ _ _ _ hle]
    rfl

/-- C8 (amended): the cap is on the JavaScript length of the accumulated
decoded body, its UTF-16 code unit count (which equals the byte count
only for one-byte characters): whenever the summed chunk code unit
counts exceed 1000000, the socket is destroyed and no response of any
kind is produced. -/
theorem c8_oversized_body_no_response (chunks : List String)
    (parseOf : String → Option Json) (store : StoreState) (now : String)
    (h : (chunks.map utf16Len).sum > 1000000) :
    submitRequest chunks parseOf store now = none := by
  have key : ∀ (cs : List String) (acc : String),
      utf16Len acc + (cs.map utf16Len).sum > 1000000 → utf16Len acc ≤ 1000000 →
        readBody cs acc = none := by
    intro cs
    induction cs with
    | nil =>
      intro acc h1 h2
      simp only [List.map_nil, List.sum_nil, Nat.add_zero] at h1
      exact absurd h1 (by omega)
    | cons c rest ih =>
      intro acc h1 h2
      simp only [readBody]
      by_cases hc : utf16Len (acc ++ c) > 1000000
      · rw [if_pos hc]
      · rw [if_neg hc]
        apply ih
        · rw [utf16Len_append]
          simp only [List.map_cons, List.sum_cons] at h1
          omega
        · omega
  unfold submitRequest
  rw [key chunks "" (by simpa [utf16Len_empty] using h) (by simp [utf16Len_empty])]

/-- C8 witness: a single chunk of 1000001 one-unit characters trips the
guard and the request ends with no response. -/
theorem c8_oversized_body_no_response_witness :
    (([String.mk (List.replicate 1000001 'a')].map utf16Len).sum > 1000000) ∧
    submitRequest [String.mk (List.replicate 1000001 'a')] (fun _ => none)
      StoreState.missing "2026-01-01T00:00:00.000Z" = none := by
  have ha : utf16Size 'a' = 1 := by decide
  have h : ([String.mk (List.replicate 1000001 'a')].map utf16Len).sum
      = 1000001 := by
    rw [sum_map_single_utf16, Nat.add_zero, utf16Len_mk, List.map_replicate, ha,
      sum_replicate_nat]
  constructor
  · rw [h]; norm_num
  · exact c8_oversized_body_no_response _ _ _ _ (by rw [h]; norm_num)

/-- C4 (corrected), counterexample: the traversal guard is a plain string
prefix test without a separator, so a decoded pathname whose dot-dot
segment lands in a sibling directory whose name extends the asset root
name (public-evil next to public) passes the guard, and the handler
serves a file whose resolved path lies outside the asset root. -/
theorem c4_counterexample :
    withinRoot PUBLIC_DIR (resolvedFor "/../public-evil/x") = false ∧
    staticServe
        (fun p => if p = "/srv/wedding-site/public-evil/x" then ReadOutcome.ok "SECRET"
         else ReadOutcome.err "ENOENT") "/../public-evil/x" =
      ⟨200, [("Content-Type", "application/octet-stream")], Body.file "SECRET"⟩ :=
  ⟨by decide, by rfl⟩

/-- C4 (amended): the static handler answers the 403 Forbidden response
exactly when the resolved path does not have the asset root as a string
prefix; in that case no file is read and no contents are returned, but
resolved paths that merely extend the root name as a string (such as a
sibling public-evil directory) pass the guard and may be served. -/
theorem c4_guard_prefix_only (fsys : String → ReadOutcome) (pathname : String) :
    staticServe fsys pathname = forbiddenResp ↔
      strStartsWith (resolvedFor pathname) PUBLIC_DIR = false := by
  by_cases hg : strStartsWith (resolvedFor pathname) PUBLIC_DIR = true
  · cases hf : fsys (resolvedFor pathname) <;>
      simp [staticServe, hg, hf, forbiddenResp, notFoundResp]
  · have hg2 : strStartsWith (resolvedFor pathname) PUBLIC_DIR = false :=
      eq_false_of_ne_true hg
    simp [staticServe, hg2]

/-- C9 (confirmed): the dispatch function of the top-level handler sends
POST /rsvp to the submit handler, GET /rsvps to the list handler and
OPTIONS /rsvp to the preflight response, which is a 204 with the three
CORS headers and no body; every other GET goes to the static handler, and
exactly the remaining method and path combinations get the 405 plain-text
Method Not Allowed response. -/
theorem c9_router_dispatch :
    route "POST" "/rsvp" = Route.submit ∧
    route "GET" "/rsvps" = Route.list ∧
    route "OPTIONS" "/rsvp" = Route.preflight ∧
    preflightResp.status = 204 ∧ preflightResp.body = Body.empty ∧
    preflightResp.headers =
      [("Access-Control-Allow-Origin", "*"),
       ("Access-Control-Allow-Methods", "POST, OPTIONS"),
       ("Access-Control-Allow-Headers", "Content-Type")] ∧
    (∀ p : String, route "GET" p = Route.staticFile ↔ ¬p = "/rsvps") ∧
    (∀ m p : String, route m p = Route.methodNotAllowed ↔
      ¬(m = "POST" ∧ p = "/rsvp") ∧ ¬m = "GET" ∧ ¬(m = "OPTIONS" ∧ p = "/rsvp")) ∧
    methodNotAllowedResp.status = 405 ∧
    methodNotAllowedResp.body = Body.text "Method Not Allowed" ∧
    methodNotAllowedResp.headers = [("Content-Type", "text/plain")] := by
  refine ⟨by decide, by decide, by decide, rfl, rfl, rfl, ?_, ?_, rfl, rfl, rfl⟩
  · intro p
    by_cases hp : p = "/rsvps" <;> simp [route, hp]
  · intro m p
    unfold route
    split_ifs with h1 h2 h3 h4 <;> simp_all

/-- C10 (confirmed): in the static handler any readFile error, whatever
its code, is answered with the 404 plain-text Not Found response; the
static path has no 500 branch at all, while the list handler answers 200
with the empty-array text only for ENOENT and 500 for every other read
error. -/
theorem c10_static_error_handling (fsys : String → ReadOutcome)
    (pathname code : String)
    (hguard : strStartsWith (resolvedFor pathname) PUBLIC_DIR = true)
    (hread : fsys (resolvedFor pathname) = ReadOutcome.err code) :
    staticServe fsys pathname = notFoundResp ∧
    (∀ (g : String → ReadOutcome) (q : String), ¬(staticServe g q).status = 500) ∧
    listOnRead (ReadOutcome.err "ENOENT") = ⟨200, corsJsonHeaders, Body.raw "[]"⟩ ∧
    (∀ c2 : String, ¬c2 = "ENOENT" → (listOnRead (ReadOutcome.err c2)).status = 500) := by
  refine ⟨?_, ?_, rfl, ?_⟩
  · simp [staticServe, hguard, hread]
  · intro g q
    by_cases hg : strStartsWith (resolvedFor q) PUBLIC_DIR = true
    · cases hf : g (resolvedFor q) <;>
        simp [staticServe, hg, hf, notFoundResp]
    · have hg2 : strStartsWith (resolvedFor q) PUBLIC_DIR = false :=
        eq_false_of_ne_true hg
      simp [staticServe, hg2, forbiddenResp]
  · intro c2 hc
    simp [listOnRead, hc]

/-- C10 witness: a permission error on an in-root path gets 404 from the
static handler while the same error code gets 500 from the list
handler. -/
theorem c10_static_error_handling_witness :
    strStartsWith (resolvedFor "/index.html") PUBLIC_DIR = true ∧
    staticServe (fun _ => ReadOutcome.err "EACCES") "/index.html" = notFoundResp ∧
    (listOnRead (ReadOutcome.err "EACCES")).status = 500 := by
  have hg : strStartsWith (resolvedFor "/index.html") PUBLIC_DIR = true := by decide
  have hthm := c10_static_error_handling (fun _ => ReadOutcome.err "EACCES")
    "/index.html" "EACCES" hg rfl
  exact ⟨hg, hthm.1, hthm.2.2.2 "EACCES" (by decide)⟩
